import Mathlib

/-
Verification development for the Resume Ranker pipeline (src/main.py).

The Python source is shallowly embedded below.  Python dicts are modelled as
association lists with distinct keys built by `dictInsert` (insertion-order
preserving, replace-in-place on existing keys, exactly as for Python 3.7+
dicts).  Python strings are Lean `String`s; `str.endswith`, `str.lower` and
the `in` substring test are modelled by executable functions on the
underlying character lists.  The external capabilities (PDF/DOCX codecs, the
LLM oracle, `json.loads`) are parameters of the embedded functions, so all
theorems quantify over their behaviour.
-/

set_option maxHeartbeats 1000000

namespace ResumeRanker

/-- Association-list lookup, modelling Python dict lookup (`d[k]`, `d.get(k)`
and the `k in d` test).  Dicts built by the pipeline always have distinct
keys, for which this is exact. -/
def alookup {α : Type} : List (String × α) → String → Option α
  | [], _ => none
  | (k, v) :: rest, key => if key = k then some v else alookup rest key

/-- Python dict assignment `d[k] = v`: if the key is already present its value
is replaced in place (keeping the key's position), otherwise the pair is
appended at the end, preserving insertion order. -/
def dictInsert {α : Type} (d : List (String × α)) (k : String) (v : α) : List (String × α) :=
  if (alookup d k).isSome then d.map (fun p => if p.1 = k then (k, v) else p)
  else d ++ [(k, v)]

/-- Boolean prefix test on character lists. -/
def prefB : List Char → List Char → Bool
  | [], _ => true
  | _ :: _, [] => false
  | a :: as, b :: bs => a = b && prefB as bs

/-- Boolean contiguous-substring test on character lists. -/
def substrB (pat : List Char) : List Char → Bool
  | [] => pat.isEmpty
  | x :: rest => prefB pat (x :: rest) || substrB pat rest

/-- Python's substring membership test `pat in s`. -/
def strContains (s pat : String) : Bool := substrB pat.data s.data

/-- Python's `s.endswith(suffix)`. -/
def strEndsWith (s sfx : String) : Bool := prefB sfx.data.reverse s.data.reverse

/-- Python's `s.lower()` (ASCII fragment; only the filename extension letters
matter to the pipeline). -/
def pyLower (s : String) : String := ⟨s.data.map Char.toLower⟩

/-- First-occurrence deduplication, modelling the column order of a pandas
DataFrame built from a list of dicts: keys in order of first appearance. -/
def pyDedup : List String → List String
  | [] => []
  | x :: xs => x :: (pyDedup xs).filter (fun y => y ≠ x)

/-- Round-half-to-even on rationals, the tie-breaking rule of Python's
`round`.  Exact rational arithmetic stands in for the IEEE doubles of the
source; no claim below depends on a floating-point tie. -/
def roundHalfEven (q : ℚ) : ℤ :=
  let f : ℤ := ⌊q⌋
  let r : ℚ := q - (f : ℚ)
  if r < 1/2 then f else if 1/2 < r then f + 1 else if f % 2 = 0 then f else f + 1

/-- Python's `round(q, 2)`: round to two decimal places. -/
def round2 (q : ℚ) : ℚ := ((roundHalfEven (q * 100) : ℤ) : ℚ) / 100

/-- Whether an `Except` value is a success. -/
def exceptOk {ε α : Type} : Except ε α → Bool
  | .ok _ => true
  | .error _ => false

/-- Abstract JSON values, the output type of `json.loads`.  Numbers are
modelled as integers (the scoring contract is integer 0–5; no claim depends
on fractional JSON numbers). -/
inductive JVal where
  | null : JVal
  | b (v : Bool) : JVal
  | n (v : ℤ) : JVal
  | s (v : String) : JVal
  | arr (vs : List JVal) : JVal
  | obj (fields : List (String × JVal)) : JVal

/-- The `Union[str, Dict, ExtractCriteriaResponse]` input of `parse_criteria`
(src/main.py line 25).  The JSON-text case is represented by the outcome of
`json.loads` on the text: `.error` carries the `JSONDecodeError` message. -/
inductive RawCriteria where
  | jsonText (parsed : Except String JVal) : RawCriteria
  | mapping (fields : List (String × JVal)) : RawCriteria
  | typed (criteria : List String) : RawCriteria

/-- Embedding of `parse_criteria` (src/main.py lines 25–47).  The string case
checks only `isinstance(parsed, dict) and "criteria" in parsed` and returns
`parsed["criteria"]` unvalidated; the inner `ValueError`s are re-wrapped by
the `except Exception` handler into an `Error parsing criteria: ...` message,
while a `JSONDecodeError` is wrapped as `Invalid JSON format: ...`.  The
typed case returns the already-validated list, rendered as a JSON array. -/
def parse_criteria : RawCriteria → Except String JVal
  | .jsonText (.error e) => .error ("Invalid JSON format: " ++ e)
  | .jsonText (.ok v) =>
    match v with
    | .obj fields =>
      match alookup fields "criteria" with
      | some c => .ok c
      | none =>
        .error "Error parsing criteria: JSON must contain a 'criteria' key with an array value"
    | _ => .error "Error parsing criteria: JSON must contain a 'criteria' key with an array value"
  | .mapping fields =>
    match alookup fields "criteria" with
    | some c => .ok c
    | none =>
      .error "Error parsing criteria: Dictionary must contain a 'criteria' key with an array value"
  | .typed cs => .ok (.arr (cs.map .s))

/-- Decode a JSON array of strings back into a string list (used to state the
round-trip property; returns `none` on any non-string element). -/
def asStringList : JVal → Option (List String)
  | .arr vs =>
    vs.foldr (fun v acc =>
      match v, acc with
      | .s t, some ts => some (t :: ts)
      | _, _ => none) (some [])
  | _ => none

/-- Embedding of `evaluate_resume` (src/main.py lines 113–147) at its error
boundary.  `resp` is the outcome of the oracle transport call (the `.error`
side carries `str(e)` of the transport exception), `jparse` is `json.loads`
applied to the response content.  Any exception inside the `try` block is
wrapped as `Error evaluating resume: <cause>`; a successfully parsed JSON
value is returned as-is, with no validation of its shape. -/
def evaluate_resume (jparse : String → Except String JVal)
    (resp : Except String String) : Except String JVal :=
  match resp with
  | .error e => .error ("Error evaluating resume: " ++ e)
  | .ok content =>
    match jparse content with
    | .error e => .error ("Error evaluating resume: " ++ e)
    | .ok v => .ok v

/-- Required top-level shape of an oracle evaluation response per the spec:
a JSON object carrying `name`, a `scores` mapping and an `explanations`
mapping.  The source never checks this; the definition exists to state
claims about that gap. -/
def hasEvalShape : JVal → Bool
  | .obj fields =>
    (alookup fields "name").isSome &&
      (match alookup fields "scores" with
       | some (.obj _) => true
       | _ => false) &&
      (match alookup fields "explanations" with
       | some (.obj _) => true
       | _ => false)
  | _ => false

/-- An uploaded file: filename plus raw content (bytes rendered opaquely). -/
structure UFile where
  filename : String
  content : String
deriving DecidableEq

/-- The well-typed view of a successful `evaluate_resume` payload as consumed
by the aggregation loop (src/main.py lines 180–193): `result.get('name')`,
`result.get('scores', {})`, `result.get('explanations', {})`.  Payloads
outside this fragment (non-object JSON, non-integer scores, ...) raise inside
the per-document `try` block and are folded into the evaluation-failure case
of the batch model. -/
structure EvalResult where
  name : Option String
  scores : List (String × ℤ)
  explanations : List (String × String)
deriving DecidableEq

/-- A cell of the report row/table: string, integer, or rational value. -/
inductive Cell where
  | s (v : String) : Cell
  | i (v : ℤ) : Cell
  | q (v : ℚ) : Cell
deriving DecidableEq

/-- One row of the report, a Python dict from column name to cell value. -/
abbrev Row := List (String × Cell)

/-- The `HTTPException` detail raised by `extract_text_from_file` on a
filename with neither the exact suffix `.pdf` nor `.docx`. -/
def unsupportedFileDetail : String :=
  "Unsupported file type. Only PDF and DOCX are allowed."

/-- Embedding of `extract_text_from_file` (src/main.py lines 49–59): dispatch
on the exact, case-sensitive filename suffix; the two codecs are external
capabilities passed as parameters (their `.error` side models a decoding
exception's message). -/
def extract_text_from_file (pdfDec docxDec : UFile → Except String String)
    (f : UFile) : Except String String :=
  if strEndsWith f.filename ".pdf" then pdfDec f
  else if strEndsWith f.filename ".docx" then docxDec f
  else .error unsupportedFileDetail

/-- The batch-level extension precheck (src/main.py line 165):
`file.filename.lower().endswith(('.pdf', '.docx'))`. -/
def extOkCI (name : String) : Bool :=
  strEndsWith (pyLower name) ".pdf" || strEndsWith (pyLower name) ".docx"

/-- The column name `f"{criterion} (Score)"` of src/main.py line 189. -/
def scoreKey (c : String) : String := c ++ " (Score)"

/-- The column name `f"{criterion} (Explanation)"` of src/main.py line 190. -/
def explKey (c : String) : String := c ++ " (Explanation)"

/-- The cell `scores.get(criterion, 0)` of src/main.py line 189. -/
def scoreCell (r : EvalResult) (c : String) : Cell :=
  Cell.i ((alookup r.scores c).getD 0)

/-- The cell `explanations.get(criterion, "No explanation provided")` of
src/main.py line 190. -/
def explCell (r : EvalResult) (c : String) : Cell :=
  Cell.s ((alookup r.explanations c).getD "No explanation provided")

/-- The body of the `for criterion in criteria_list` loop (src/main.py lines
188–190): two dict assignments per criterion. -/
def critCols (r : EvalResult) (d : Row) (c : String) : Row :=
  dictInsert (dictInsert d (scoreKey c) (scoreCell r c)) (explKey c) (explCell r c)

/-- Construction of one result row (src/main.py lines 180–193), as the exact
sequence of Python dict assignments: base fields, then per criterion the
score (default 0) and explanation (default "No explanation provided") cells,
then `Total Score = sum(scores.values())` and
`Average Score = round(sum(scores.values()) / len(criteria_list), 2)`. -/
def buildRow (criteria : List String) (fname : String) (r : EvalResult) : Row :=
  let d0 := dictInsert [] "Filename" (Cell.s fname)
  let d1 := dictInsert d0 "Candidate Name" (Cell.s (r.name.getD "Unknown"))
  let d2 := criteria.foldl (critCols r) d1
  let total : ℤ := (r.scores.map Prod.snd).sum
  let d3 := dictInsert d2 "Total Score" (Cell.i total)
  dictInsert d3 "Average Score"
    (Cell.q (round2 ((total : ℚ) / (criteria.length : ℚ))))

/-- Processing of a single document inside the batch loop (src/main.py lines
174–199): extract, evaluate, build the row; any failure is recorded as
`Error processing <filename>: <cause>`.  `evalDoc` is the outcome of
`evaluate_resume` on the extracted text (with the fixed criteria list),
restricted to the well-typed fragment as documented at `EvalResult`. -/
def processOne (pdfDec docxDec : UFile → Except String String)
    (evalDoc : String → Except String EvalResult)
    (criteria : List String) (f : UFile) : Except String Row :=
  match extract_text_from_file pdfDec docxDec f with
  | .error e => .error ("Error processing " ++ f.filename ++ ": " ++ e)
  | .ok text =>
    match evalDoc text with
    | .error e => .error ("Error processing " ++ f.filename ++ ": " ++ e)
    | .ok r => .ok (buildRow criteria f.filename r)

/-- The accumulation loop of `score_resumes` (src/main.py lines 171–199):
successful rows and error messages, each in input order. -/
def runBatch (pdfDec docxDec : UFile → Except String String)
    (evalDoc : String → Except String EvalResult)
    (criteria : List String) (files : List UFile) : List Row × List String :=
  files.foldl (fun acc f =>
    match processOne pdfDec docxDec evalDoc criteria f with
    | .ok row => (acc.1 ++ [row], acc.2)
    | .error e => (acc.1, acc.2 ++ [e])) ([], [])

/-- The serialized tabular artifact: final column order plus the grid of
cells (one list per row, projected onto the final columns). -/
structure Artifact where
  columns : List String
  cells : List (List Cell)
deriving DecidableEq

/-- The literal `base_cols` of src/main.py line 211. -/
def baseCols : List String := ["Filename", "Candidate Name"]

/-- Embedding of the serialization step (src/main.py lines 207–217): the
DataFrame's columns are the row-dict keys in first-appearance order;
`score_cols` and `explanation_cols` are selected by Python substring
membership (`"Score" in col`, `"Explanation" in col`); the frame is then
re-indexed to `base_cols + score_cols + explanation_cols` (a duplicated
label yields a duplicated column). -/
def serializeReport (rows : List Row) : Artifact :=
  let allCols := pyDedup (rows.map (fun r => r.map Prod.fst)).flatten
  let scoreCols := allCols.filter (fun c => strContains c "Score")
  let explCols := allCols.filter (fun c => strContains c "Explanation")
  let finalCols := baseCols ++ scoreCols ++ explCols
  { columns := finalCols
    cells := rows.map (fun r => finalCols.map (fun c => (alookup r c).getD (Cell.s ""))) }

/-- Embedding of the `score_resumes` endpoint body from the point where the
criteria list has been normalized (src/main.py lines 156–233).  The
`.error` side carries the `HTTPException` detail string. -/
def score_resumes (pdfDec docxDec : UFile → Except String String)
    (evalDoc : String → Except String EvalResult)
    (criteria_list : List String) (files : List UFile) : Except String Artifact :=
  if criteria_list.isEmpty then .error "At least one criterion is required"
  else if files.isEmpty then .error "At least one resume file is required"
  else
    match files.find? (fun f => !(extOkCI f.filename)) with
    | some f =>
      .error ("Unsupported file format for " ++ f.filename ++
        ". Only PDF and DOCX files are accepted.")
    | none =>
      let res := runBatch pdfDec docxDec evalDoc criteria_list files
      if res.1.isEmpty then
        .error ("No resumes could be processed successfully. Errors: " ++
          String.intercalate "; " res.2)
      else .ok (serializeReport res.1)

/-- The row contributed by a file, if its processing succeeds. -/
def okRow (pdfDec docxDec : UFile → Except String String)
    (evalDoc : String → Except String EvalResult)
    (criteria : List String) (f : UFile) : Option Row :=
  (processOne pdfDec docxDec evalDoc criteria f).toOption

/-- The error message contributed by a file, if its processing fails. -/
def errMsg (pdfDec docxDec : UFile → Except String String)
    (evalDoc : String → Except String EvalResult)
    (criteria : List String) (f : UFile) : Option String :=
  match processOne pdfDec docxDec evalDoc criteria f with
  | .ok _ => none
  | .error e => some e

/-- Python-dict entries of a row whose key is a per-criterion score column. -/
def scoreEntries (row : Row) : Row :=
  row.filter (fun p => strEndsWith p.1 " (Score)")

/-- Python-dict entries of a row whose key is a per-criterion explanation
column. -/
def explEntries (row : Row) : Row :=
  row.filter (fun p => strEndsWith p.1 " (Explanation)")

/-- The claim-side formula for the total: the sum of the row's per-criterion
scores after default-filling (missing criteria as 0, oracle keys outside the
criteria list excluded).  Stated from the spec's words, to be compared with
the source's `sum(scores.values())`. -/
def specTotal (criteria : List String) (scores : List (String × ℤ)) : ℤ :=
  (criteria.map (fun c => (alookup scores c).getD 0)).sum

/-! Basic lemmas about the JSON-side definitions. -/

theorem asStringList_map_s (L : List String) :
    asStringList (.arr (L.map .s)) = some L := by
  induction L with
  | nil => rfl
  | cons x xs ih =>
    have h : (List.map JVal.s xs).foldr
        (fun v acc =>
          match v, acc with
          | .s t, some ts => some (t :: ts)
          | _, _ => none) (some []) = some xs := by
      simpa [asStringList] using ih
    simp [asStringList, h]

/-- C7: normalizing the JSON text encoding of `{"criteria": L}` returns the
criteria list L unchanged, element order preserved.  The `json` module's
text round-trip is modelled as the identity on the abstract JSON value, so
the parsed input is exactly the object `{"criteria": L}`. -/
theorem c7_criteria_round_trip (L : List String) (_h : L ≠ []) :
    parse_criteria (.jsonText (.ok (.obj [("criteria", .arr (L.map .s))]))) =
      .ok (.arr (L.map .s)) ∧
    asStringList (.arr (L.map .s)) = some L := by
  refine ⟨?_, asStringList_map_s L⟩
  simp [parse_criteria, alookup]

/-- C7 witness at `L = ["5+ years Python", "AWS certification"]`. -/
theorem c7_criteria_round_trip_witness :
    parse_criteria (.jsonText (.ok (.obj [("criteria",
        .arr [JVal.s "5+ years Python", JVal.s "AWS certification"])]))) =
      .ok (.arr [JVal.s "5+ years Python", JVal.s "AWS certification"]) ∧
    asStringList (.arr [JVal.s "5+ years Python", JVal.s "AWS certification"]) =
      some ["5+ years Python", "AWS certification"] :=
  c7_criteria_round_trip ["5+ years Python", "AWS certification"] (by decide)

/-- C3: the code's behaviour at the failing inputs.  `parse_criteria` checks
only that the parsed value is a dict containing the key `"criteria"`; the
value under that key is returned unvalidated.  On the JSON text
`{"criteria": 5}` it succeeds and returns the number 5 — not a sequence of
strings — and on `{"criteria": [1]}` it succeeds and returns a list
containing a non-string, in both cases instead of failing with a
`SchemaViolation` as the claim (and the code's own error message,
"a 'criteria' key with an array value", and its `List[str]` return
annotation) require. -/
theorem c3_unvalidated_criteria_value :
    parse_criteria (.jsonText (.ok (.obj [("criteria", .n 5)]))) = .ok (.n 5) ∧
    asStringList (.n 5) = none ∧
    parse_criteria (.jsonText (.ok (.obj [("criteria", .arr [.n 1])]))) =
      .ok (.arr [.n 1]) ∧
    asStringList (.arr [.n 1]) = none := by
  refine ⟨?_, rfl, ?_, rfl⟩ <;> simp [parse_criteria, alookup]

/-- C9 counterexample: an oracle response that parses as JSON but lacks the
required top-level shape (`name`, `scores`, `explanations`) does NOT make
`evaluate_resume` fail — the parsed value is returned as-is.  Here the
response content is the empty JSON object. -/
theorem c9_missing_shape_not_rejected :
    evaluate_resume
        (fun s => if s = "{}" then .ok (.obj []) else .error "Expecting value")
        (.ok "{}") = .ok (.obj []) ∧
    hasEvalShape (.obj []) = false := by
  constructor
  · simp [evaluate_resume]
  · rfl

/-- C9 amended: `evaluate_resume` fails — with `EvaluationFailed` wrapping
the underlying cause as `Error evaluating resume: <cause>` — exactly when
the oracle transport call fails or the response content is not valid JSON;
any successfully parsed JSON value is returned as-is, with no validation of
the required top-level shape (that normalization happens downstream in the
aggregation loop). -/
theorem c9_evaluation_failure_boundary (jparse : String → Except String JVal)
    (resp : Except String String) :
    (∀ e, resp = .error e →
      evaluate_resume jparse resp = .error ("Error evaluating resume: " ++ e)) ∧
    (∀ content e, resp = .ok content → jparse content = .error e →
      evaluate_resume jparse resp = .error ("Error evaluating resume: " ++ e)) ∧
    (∀ content v, resp = .ok content → jparse content = .ok v →
      evaluate_resume jparse resp = .ok v) ∧
    (exceptOk (evaluate_resume jparse resp) = true ↔
      ∃ content v, resp = .ok content ∧ jparse content = .ok v) := by
  refine ⟨?_, ?_, ?_, ?_⟩
  · rintro e rfl; rfl
  · rintro content e rfl h; simp [evaluate_resume, h]
  · rintro content v rfl h; simp [evaluate_resume, h]
  · cases resp with
    | error e => simp [evaluate_resume, exceptOk]
    | ok content =>
      cases h : jparse content with
      | error e => simp [evaluate_resume, h, exceptOk]
      | ok v => simp [evaluate_resume, h, exceptOk]

/-- C9 witness: the amended theorem applied at a concrete transport error
and at a concrete successful parse. -/
theorem c9_evaluation_failure_boundary_witness :
    evaluate_resume (fun _ => .ok (.obj [("name", .s "Jane")]))
        (.error "connection refused") =
      .error ("Error evaluating resume: " ++ "connection refused") ∧
    evaluate_resume (fun _ => .ok (.obj [("name", .s "Jane")])) (.ok "x") =
      .ok (.obj [("name", .s "Jane")]) :=
  ⟨(c9_evaluation_failure_boundary _ _).1 "connection refused" rfl,
   (c9_evaluation_failure_boundary _ _).2.2.1 "x" _ rfl rfl⟩

/-! Characterization of the batch accumulation loop. -/

theorem runBatch_go (pdfDec docxDec : UFile → Except String String)
    (evalDoc : String → Except String EvalResult) (criteria : List String) :
    ∀ (files : List UFile) (r0 : List Row) (e0 : List String),
      files.foldl (fun acc f =>
        match processOne pdfDec docxDec evalDoc criteria f with
        | .ok row => (acc.1 ++ [row], acc.2)
        | .error e => (acc.1, acc.2 ++ [e])) (r0, e0) =
      (r0 ++ files.filterMap (okRow pdfDec docxDec evalDoc criteria),
       e0 ++ files.filterMap (errMsg pdfDec docxDec evalDoc criteria)) := by
  intro files
  induction files with
  | nil => intro r0 e0; simp
  | cons f fs ih =>
    intro r0 e0
    cases h : processOne pdfDec docxDec evalDoc criteria f with
    | ok row =>
      simp only [List.foldl_cons, h, ih, List.filterMap_cons, okRow, errMsg,
        Except.toOption, List.append_assoc, List.singleton_append]
    | error e =>
      simp only [List.foldl_cons, h, ih, List.filterMap_cons, okRow, errMsg,
        Except.toOption, List.append_assoc, List.singleton_append]

/-- The batch loop yields exactly the successful rows and the failure
messages, each in input order. -/
theorem runBatch_eq (pdfDec docxDec : UFile → Except String String)
    (evalDoc : String → Except String EvalResult)
    (criteria : List String) (files : List UFile) :
    runBatch pdfDec docxDec evalDoc criteria files =
      (files.filterMap (okRow pdfDec docxDec evalDoc criteria),
       files.filterMap (errMsg pdfDec docxDec evalDoc criteria)) := by
  simpa [runBatch] using runBatch_go pdfDec docxDec evalDoc criteria files [] []

theorem length_filterMap_okRow (pdfDec docxDec : UFile → Except String String)
    (evalDoc : String → Except String EvalResult)
    (criteria : List String) (files : List UFile) :
    (files.filterMap (okRow pdfDec docxDec evalDoc criteria)).length =
      (files.filter (fun f =>
        exceptOk (processOne pdfDec docxDec evalDoc criteria f))).length := by
  induction files with
  | nil => rfl
  | cons f fs ih =>
    cases h : processOne pdfDec docxDec evalDoc criteria f with
    | ok row => simp [List.filterMap_cons, List.filter_cons, okRow, h, exceptOk,
        Except.toOption, ih]
    | error e => simp [List.filterMap_cons, List.filter_cons, okRow, h, exceptOk,
        Except.toOption, ih]

theorem length_filterMap_errMsg (pdfDec docxDec : UFile → Except String String)
    (evalDoc : String → Except String EvalResult)
    (criteria : List String) (files : List UFile) :
    (files.filterMap (errMsg pdfDec docxDec evalDoc criteria)).length =
      (files.filter (fun f =>
        !(exceptOk (processOne pdfDec docxDec evalDoc criteria f)))).length := by
  induction files with
  | nil => rfl
  | cons f fs ih =>
    cases h : processOne pdfDec docxDec evalDoc criteria f with
    | ok row => simp [List.filterMap_cons, List.filter_cons, errMsg, h, exceptOk, ih]
    | error e => simp [List.filterMap_cons, List.filter_cons, errMsg, h, exceptOk, ih]

theorem length_filter_add_not {α : Type} (p : α → Bool) (l : List α) :
    (l.filter p).length + (l.filter (fun a => !(p a))).length = l.length := by
  induction l with
  | nil => rfl
  | cons a l ih =>
    cases h : p a <;> simp [List.filter_cons, h, ih] <;> omega

/-- Every failure entry produced by the per-document step has the
`Error processing <filename>: <cause>` format. -/
theorem processOne_error_form (pdfDec docxDec : UFile → Except String String)
    (evalDoc : String → Except String EvalResult)
    (criteria : List String) (f : UFile) (e : String)
    (h : processOne pdfDec docxDec evalDoc criteria f = .error e) :
    ∃ cause, e = "Error processing " ++ f.filename ++ ": " ++ cause := by
  unfold processOne at h
  cases hx : extract_text_from_file pdfDec docxDec f with
  | error e1 =>
    simp only [hx] at h
    exact ⟨e1, by injection h with h'; exact h'.symm⟩
  | ok text =>
    simp only [hx] at h
    cases he : evalDoc text with
    | error e2 =>
      simp only [he] at h
      exact ⟨e2, by injection h with h'; exact h'.symm⟩
    | ok r => simp only [he] at h; cases h

theorem toOption_eq_some {ε α : Type} (x : Except ε α) (a : α)
    (h : x.toOption = some a) : x = .ok a := by
  cases x with
  | ok b => cases h; rfl
  | error e => cases h

/-- C8: a single filename failing the case-insensitive `.pdf`/`.docx` check
rejects the whole batch with the `UnsupportedFileType` message naming the
first offending file, for every possible behaviour of the codecs and the
oracle — i.e. before any document is extracted or any oracle call is made —
and hence no rows and no per-document errors are produced. -/
theorem c8_upfront_batch_rejection (criteria_list : List String)
    (files : List UFile) (badf : UFile)
    (hcrit : criteria_list ≠ [])
    (hfind : files.find? (fun f => !(extOkCI f.filename)) = some badf) :
    extOkCI badf.filename = false ∧
    ∀ (pdfDec docxDec : UFile → Except String String)
      (evalDoc : String → Except String EvalResult),
      score_resumes pdfDec docxDec evalDoc criteria_list files =
        .error ("Unsupported file format for " ++ badf.filename ++
          ". Only PDF and DOCX files are accepted.") := by
  have hbad := List.find?_some hfind
  constructor
  · simpa using hbad
  · intro pdfDec docxDec evalDoc
    have h1 : criteria_list.isEmpty = false := by
      cases criteria_list with
      | nil => exact absurd rfl hcrit
      | cons a l => rfl
    have h2 : files.isEmpty = false := by
      cases files with
      | nil => simp at hfind
      | cons a l => rfl
    simp [score_resumes, h1, h2, hfind]

/-- C8 witness: a batch of a `.txt` file and a valid `.pdf` file is rejected
up front, naming the `.txt` file. -/
theorem c8_upfront_batch_rejection_witness :
    score_resumes (fun _ => .ok "text") (fun _ => .ok "text")
        (fun _ => .ok ⟨some "Jane", [("C", 3)], []⟩) ["C"]
        [⟨"notes.txt", "x"⟩, ⟨"resume.pdf", "y"⟩] =
      .error ("Unsupported file format for " ++ "notes.txt" ++
        ". Only PDF and DOCX files are accepted.") :=
  (c8_upfront_batch_rejection ["C"] [⟨"notes.txt", "x"⟩, ⟨"resume.pdf", "y"⟩]
    ⟨"notes.txt", "x"⟩ (by decide) (by decide)).2 _ _ _

/-- C5: in a batch of N documents where 1 ≤ k < N fail extraction or
evaluation, the batch succeeds; the rows are exactly the successfully
processed documents in input order (the input order restricted to the
successes), there are N − k of them, the error list has length k, and every
error entry has the form `Error processing <filename>: <cause>`. -/
theorem c5_partial_failure_tolerance (pdfDec docxDec : UFile → Except String String)
    (evalDoc : String → Except String EvalResult)
    (criteria : List String) (files : List UFile)
    (hcrit : criteria ≠ [])
    (hext : ∀ f ∈ files, extOkCI f.filename = true)
    (hk1 : 1 ≤ (files.filter (fun f =>
      !(exceptOk (processOne pdfDec docxDec evalDoc criteria f)))).length)
    (hk2 : (files.filter (fun f =>
      !(exceptOk (processOne pdfDec docxDec evalDoc criteria f)))).length <
        files.length) :
    (runBatch pdfDec docxDec evalDoc criteria files).1 =
      files.filterMap (okRow pdfDec docxDec evalDoc criteria) ∧
    (runBatch pdfDec docxDec evalDoc criteria files).1.length =
      files.length - (files.filter (fun f =>
        !(exceptOk (processOne pdfDec docxDec evalDoc criteria f)))).length ∧
    (runBatch pdfDec docxDec evalDoc criteria files).2.length =
      (files.filter (fun f =>
        !(exceptOk (processOne pdfDec docxDec evalDoc criteria f)))).length ∧
    (∀ e ∈ (runBatch pdfDec docxDec evalDoc criteria files).2,
      ∃ f ∈ files, ∃ cause,
        e = "Error processing " ++ f.filename ++ ": " ++ cause) ∧
    score_resumes pdfDec docxDec evalDoc criteria files =
      .ok (serializeReport (runBatch pdfDec docxDec evalDoc criteria files).1) := by
  have hrb := runBatch_eq pdfDec docxDec evalDoc criteria files
  have hlenok := length_filterMap_okRow pdfDec docxDec evalDoc criteria files
  have hlenerr := length_filterMap_errMsg pdfDec docxDec evalDoc criteria files
  have hsum := length_filter_add_not
    (fun f => exceptOk (processOne pdfDec docxDec evalDoc criteria f)) files
  refine ⟨by rw [hrb], ?_, ?_, ?_, ?_⟩
  · rw [hrb]
    simp only [hlenok]
    omega
  · rw [hrb]
    simpa using hlenerr
  · intro e he
    rw [hrb] at he
    simp only at he
    obtain ⟨f, hf, hmsg⟩ := List.mem_filterMap.mp he
    unfold errMsg at hmsg
    cases hp : processOne pdfDec docxDec evalDoc criteria f with
    | ok row => rw [hp] at hmsg; cases hmsg
    | error e' =>
      rw [hp] at hmsg
      injection hmsg with h'
      obtain ⟨cause, hc⟩ :=
        processOne_error_form pdfDec docxDec evalDoc criteria f e' hp
      exact ⟨f, hf, cause, by rw [← h', hc]⟩
  · have h1 : criteria.isEmpty = false := by
      cases criteria with
      | nil => exact absurd rfl hcrit
      | cons a l => rfl
    have h2 : files.isEmpty = false := by
      cases files with
      | nil => simp at hk2
      | cons a l => rfl
    have h3 : files.find? (fun f => !(extOkCI f.filename)) = none := by
      rw [List.find?_eq_none]
      intro f hf
      simp [hext f hf]
    have h4 : (runBatch pdfDec docxDec evalDoc criteria files).1.isEmpty = false := by
      rw [hrb]
      have : (files.filterMap (okRow pdfDec docxDec evalDoc criteria)).length ≠ 0 := by
        rw [hlenok]; omega
      cases hcase : files.filterMap (okRow pdfDec docxDec evalDoc criteria) with
      | nil => rw [hcase] at this; simp at this
      | cons a l => simp
    unfold score_resumes
    rw [h1, h2, h3]
    simp only [Bool.false_eq_true, if_false]
    rw [if_neg (by rw [h4]; simp)]

/-- C5 witness: two documents, the second fails PDF decoding; the batch
succeeds with one row and one well-formed error entry. -/
theorem c5_partial_failure_tolerance_witness :
    (1 ≤ ([⟨"a.pdf", "good"⟩, (⟨"b.pdf", "corrupt"⟩ : UFile)].filter (fun f =>
      !(exceptOk (processOne
        (fun g => if g.content = "good" then .ok "TEXT" else .error "bad pdf")
        (fun _ => .error "bad docx")
        (fun _ => .ok ⟨some "Jane", [("C", 3)], [("C", "ok")]⟩) ["C"] f)))).length) ∧
    score_resumes
        (fun g => if g.content = "good" then .ok "TEXT" else .error "bad pdf")
        (fun _ => .error "bad docx")
        (fun _ => .ok ⟨some "Jane", [("C", 3)], [("C", "ok")]⟩)
        ["C"] [⟨"a.pdf", "good"⟩, ⟨"b.pdf", "corrupt"⟩] =
      .ok (serializeReport (runBatch
        (fun g => if g.content = "good" then .ok "TEXT" else .error "bad pdf")
        (fun _ => .error "bad docx")
        (fun _ => .ok ⟨some "Jane", [("C", 3)], [("C", "ok")]⟩)
        ["C"] [⟨"a.pdf", "good"⟩, ⟨"b.pdf", "corrupt"⟩]).1) :=
  ⟨by decide,
   (c5_partial_failure_tolerance _ _ _ ["C"]
     [⟨"a.pdf", "good"⟩, ⟨"b.pdf", "corrupt"⟩]
     (by decide) (by decide) (by decide) (by decide)).2.2.2.2⟩

/-- C6 amended: with a non-empty criteria list, a non-empty batch and all
filenames passing the up-front extension check, (i) if every document fails
the whole call fails with the `AllDocumentsFailed` detail carrying the
per-document error messages joined by `"; "`, and no artifact is serialized;
(ii) if at least one row exists the batch succeeds — but the response is
built from the successful rows alone: the error list is discarded, not
surfaced. -/
theorem c6_all_fail_escalation (pdfDec docxDec : UFile → Except String String)
    (evalDoc : String → Except String EvalResult)
    (criteria : List String) (files : List UFile)
    (hcrit : criteria ≠ []) (hfiles : files ≠ [])
    (hext : ∀ f ∈ files, extOkCI f.filename = true) :
    ((runBatch pdfDec docxDec evalDoc criteria files).1 = [] →
      score_resumes pdfDec docxDec evalDoc criteria files =
        .error ("No resumes could be processed successfully. Errors: " ++
          String.intercalate "; "
            (runBatch pdfDec docxDec evalDoc criteria files).2)) ∧
    ((runBatch pdfDec docxDec evalDoc criteria files).1 ≠ [] →
      score_resumes pdfDec docxDec evalDoc criteria files =
        .ok (serializeReport (runBatch pdfDec docxDec evalDoc criteria files).1)) := by
  have h1 : criteria.isEmpty = false := by
    cases criteria with
    | nil => exact absurd rfl hcrit
    | cons a l => rfl
  have h2 : files.isEmpty = false := by
    cases files with
    | nil => exact absurd rfl hfiles
    | cons a l => rfl
  have h3 : files.find? (fun f => !(extOkCI f.filename)) = none := by
    rw [List.find?_eq_none]
    intro f hf
    simp [hext f hf]
  constructor
  · intro hrows
    unfold score_resumes
    rw [h1, h2, h3]
    simp only [Bool.false_eq_true, if_false]
    rw [if_pos (by rw [hrows]; rfl)]
  · intro hrows
    unfold score_resumes
    rw [h1, h2, h3]
    simp only [Bool.false_eq_true, if_false]
    rw [if_neg (by simpa [List.isEmpty_iff] using hrows)]

/-- C6 witness: the amended theorem applied to an all-fail batch of two
documents, yielding the concatenated error detail. -/
theorem c6_all_fail_escalation_witness :
    score_resumes (fun _ => .error "broken pdf") (fun _ => .error "broken docx")
        (fun _ => .ok ⟨some "Jane", [("C", 3)], []⟩)
        ["C"] [⟨"a.pdf", "x"⟩, ⟨"b.docx", "y"⟩] =
      .error ("No resumes could be processed successfully. Errors: " ++
        String.intercalate "; " (runBatch (fun _ => .error "broken pdf")
          (fun _ => .error "broken docx")
          (fun _ => .ok ⟨some "Jane", [("C", 3)], []⟩)
          ["C"] [⟨"a.pdf", "x"⟩, ⟨"b.docx", "y"⟩]).2) :=
  (c6_all_fail_escalation _ _ _ ["C"] [⟨"a.pdf", "x"⟩, ⟨"b.docx", "y"⟩]
    (by decide) (by decide) (by decide)).1 (by decide)

/-- C6 counterexample to the claim's final clause ("the error list is
surfaced rather than dropped"): adding a failing document to a batch leaves
the successful response literally unchanged — the response of the batch
with one success and one failure equals the response of the batch with the
success alone, so the error list appears nowhere in the response. -/
theorem c6_error_list_dropped :
    score_resumes
        (fun g => if g.content = "good" then .ok "TEXT" else .error "bad pdf")
        (fun _ => .error "bad docx")
        (fun _ => .ok ⟨some "Jane", [("C", 3)], [("C", "ok")]⟩)
        ["C"] [⟨"a.pdf", "good"⟩, ⟨"b.pdf", "corrupt"⟩] =
      score_resumes
        (fun g => if g.content = "good" then .ok "TEXT" else .error "bad pdf")
        (fun _ => .error "bad docx")
        (fun _ => .ok ⟨some "Jane", [("C", 3)], [("C", "ok")]⟩)
        ["C"] [⟨"a.pdf", "good"⟩] ∧
    (runBatch
        (fun g => if g.content = "good" then .ok "TEXT" else .error "bad pdf")
        (fun _ => .error "bad docx")
        (fun _ => .ok ⟨some "Jane", [("C", 3)], [("C", "ok")]⟩)
        ["C"] [⟨"a.pdf", "good"⟩, ⟨"b.pdf", "corrupt"⟩]).2 =
      ["Error processing " ++ "b.pdf" ++ ": " ++ "bad pdf"] := by
  constructor <;> rfl

/-- C10: a filename that passes the batch-level case-insensitive extension
check but does not carry the exact lowercase suffix `.pdf` or `.docx` does
not reject the batch; instead the case-sensitive dispatch of
`extract_text_from_file` raises the unsupported-file-type error for that
document, which is recorded in the error list in the per-document format,
and the document contributes no row (every produced row comes from some
successfully processed file). -/
theorem c10_case_sensitive_dispatch_gap (pdfDec docxDec : UFile → Except String String)
    (evalDoc : String → Except String EvalResult)
    (criteria : List String) (files : List UFile)
    (hext : ∀ f ∈ files, extOkCI f.filename = true)
    (f0 : UFile) (hf0 : f0 ∈ files)
    (hpdf : strEndsWith f0.filename ".pdf" = false)
    (hdocx : strEndsWith f0.filename ".docx" = false) :
    files.find? (fun f => !(extOkCI f.filename)) = none ∧
    processOne pdfDec docxDec evalDoc criteria f0 =
      .error ("Error processing " ++ f0.filename ++ ": " ++ unsupportedFileDetail) ∧
    ("Error processing " ++ f0.filename ++ ": " ++ unsupportedFileDetail) ∈
      (runBatch pdfDec docxDec evalDoc criteria files).2 ∧
    ∀ row ∈ (runBatch pdfDec docxDec evalDoc criteria files).1,
      ∃ f ∈ files, processOne pdfDec docxDec evalDoc criteria f = .ok row := by
  have hproc : processOne pdfDec docxDec evalDoc criteria f0 =
      .error ("Error processing " ++ f0.filename ++ ": " ++ unsupportedFileDetail) := by
    unfold processOne extract_text_from_file
    rw [hpdf, hdocx]
    simp
  have hrb := runBatch_eq pdfDec docxDec evalDoc criteria files
  refine ⟨?_, hproc, ?_, ?_⟩
  · rw [List.find?_eq_none]
    intro f hf
    simp [hext f hf]
  · rw [hrb]
    simp only
    exact List.mem_filterMap.mpr ⟨f0, hf0, by rw [errMsg, hproc]⟩
  · intro row hrow
    rw [hrb] at hrow
    simp only at hrow
    obtain ⟨f, hf, hok⟩ := List.mem_filterMap.mp hrow
    exact ⟨f, hf, toOption_eq_some _ _ hok⟩

/-- C10 witness: the file `resume.PDF` passes the case-insensitive batch
check but fails the case-sensitive extraction dispatch, landing in the
error list. -/
theorem c10_case_sensitive_dispatch_gap_witness :
    processOne (fun _ => .ok "TEXT") (fun _ => .ok "TEXT")
        (fun _ => .ok ⟨some "Jane", [("C", 3)], []⟩) ["C"] ⟨"resume.PDF", "x"⟩ =
      .error ("Error processing " ++ "resume.PDF" ++ ": " ++ unsupportedFileDetail) ∧
    ("Error processing " ++ "resume.PDF" ++ ": " ++ unsupportedFileDetail) ∈
      (runBatch (fun _ => .ok "TEXT") (fun _ => .ok "TEXT")
        (fun _ => .ok ⟨some "Jane", [("C", 3)], []⟩) ["C"]
        [⟨"resume.PDF", "x"⟩]).2 := by
  have h := c10_case_sensitive_dispatch_gap (fun _ => .ok "TEXT") (fun _ => .ok "TEXT")
    (fun _ => .ok ⟨some "Jane", [("C", 3)], []⟩) ["C"] [⟨"resume.PDF", "x"⟩]
    (by decide) ⟨"resume.PDF", "x"⟩ (by decide) (by decide) (by decide)
  exact ⟨h.2.1, h.2.2.1⟩

/-! Lemmas about the Python-dict model. -/

theorem alookup_append {α : Type} (d e : List (String × α)) (k : String) :
    alookup (d ++ e) k = ((alookup d k).orElse (fun _ => alookup e k)) := by
  induction d with
  | nil => simp [alookup]
  | cons p rest ih =>
    by_cases h : k = p.1
    · simp [alookup, h]
    · simp [alookup, h, ih]

theorem alookup_mapReplace {α : Type} (d : List (String × α)) (k : String) (v : α)
    (h : (alookup d k).isSome) :
    alookup (d.map (fun p => if p.1 = k then (k, v) else p)) k = some v := by
  induction d with
  | nil => simp [alookup] at h
  | cons p rest ih =>
    obtain ⟨k1, v1⟩ := p
    by_cases hk : k1 = k
    · subst hk
      rw [List.map_cons, if_pos rfl]
      simp [alookup]
    · have hk2 : ¬(k = k1) := fun hc => hk hc.symm
      have h' : (alookup rest k).isSome := by simpa [alookup, hk2] using h
      rw [List.map_cons, if_neg hk]
      simp [alookup, hk2, ih h']

theorem alookup_mapReplace_ne {α : Type} (d : List (String × α)) (k k' : String) (v : α)
    (h : k' ≠ k) :
    alookup (d.map (fun p => if p.1 = k then (k, v) else p)) k' = alookup d k' := by
  induction d with
  | nil => simp
  | cons p rest ih =>
    obtain ⟨k1, v1⟩ := p
    by_cases hk : k1 = k
    · subst hk
      rw [List.map_cons, if_pos rfl]
      simp [alookup, h, ih]
    · rw [List.map_cons, if_neg hk]
      by_cases hk' : k' = k1
      · simp [alookup, hk']
      · simp [alookup, hk', ih]

theorem alookup_dictInsert_self {α : Type} (d : List (String × α)) (k : String) (v : α) :
    alookup (dictInsert d k v) k = some v := by
  unfold dictInsert
  cases h : (alookup d k).isSome with
  | true => simp only [if_true]; exact alookup_mapReplace d k v h
  | false =>
    have hnone : alookup d k = none := by
      cases hx : alookup d k with
      | none => rfl
      | some a => rw [hx] at h; cases h
    simp only [Bool.false_eq_true, if_false]
    rw [alookup_append, hnone]
    simp [alookup]

theorem alookup_dictInsert_ne {α : Type} (d : List (String × α)) (k k' : String) (v : α)
    (h : k' ≠ k) :
    alookup (dictInsert d k v) k' = alookup d k' := by
  unfold dictInsert
  cases hs : (alookup d k).isSome with
  | true => simp only [if_true]; exact alookup_mapReplace_ne d k k' v h
  | false =>
    simp only [Bool.false_eq_true, if_false]
    rw [alookup_append]
    cases hx : alookup d k' with
    | some a => rfl
    | none => simp [alookup, h]

theorem keys_dictInsert_fresh {α : Type} (d : List (String × α)) (k : String) (v : α)
    (h : alookup d k = none) :
    (dictInsert d k v).map Prod.fst = d.map Prod.fst ++ [k] := by
  unfold dictInsert
  rw [h]
  simp

theorem dictInsert_fresh {α : Type} (d : List (String × α)) (k : String) (v : α)
    (h : alookup d k = none) :
    dictInsert d k v = d ++ [(k, v)] := by
  unfold dictInsert
  rw [h]
  rfl

/-! String no-confusion facts about the generated column names. -/

theorem str_append_cancel (a b s : String) (h : a ++ s = b ++ s) : a = b := by
  apply String.ext
  have hd := congrArg String.data h
  rw [String.data_append, String.data_append] at hd
  exact List.append_cancel_right hd

theorem str_ne_append₂ (c1 c2 s1 s2 : String) (x y1 y2 : Char) (t1 t2 : List Char)
    (h1 : s1.data.reverse = x :: y1 :: t1) (h2 : s2.data.reverse = x :: y2 :: t2)
    (hy : y1 ≠ y2) : c1 ++ s1 ≠ c2 ++ s2 := by
  intro h
  have hd := congrArg (fun s : String => s.data.reverse) h
  simp only [String.data_append, List.reverse_append, h1, h2, List.cons_append,
    List.cons.injEq] at hd
  exact hy hd.2.1

theorem str_fixed_ne_append (fixed c s : String) (xf xs : Char) (tf ts : List Char)
    (hf : fixed.data.reverse = xf :: tf) (hs : s.data.reverse = xs :: ts)
    (hx : xf ≠ xs) : fixed ≠ c ++ s := by
  intro h
  have hd := congrArg (fun s : String => s.data.reverse) h
  simp only [String.data_append, List.reverse_append, hf, hs, List.cons_append,
    List.cons.injEq] at hd
  exact hx hd.1

theorem scoreKey_inj (c1 c2 : String) (h : scoreKey c1 = scoreKey c2) : c1 = c2 :=
  str_append_cancel c1 c2 " (Score)" h

theorem explKey_inj (c1 c2 : String) (h : explKey c1 = explKey c2) : c1 = c2 :=
  str_append_cancel c1 c2 " (Explanation)" h

theorem scoreKey_ne_explKey (c1 c2 : String) : scoreKey c1 ≠ explKey c2 :=
  str_ne_append₂ c1 c2 " (Score)" " (Explanation)" ')' 'e' 'n' _ _ rfl rfl (by decide)

theorem filename_ne_scoreKey (c : String) : "Filename" ≠ scoreKey c :=
  str_fixed_ne_append "Filename" c " (Score)" 'e' ')' _ _ rfl rfl (by decide)

theorem filename_ne_explKey (c : String) : "Filename" ≠ explKey c :=
  str_fixed_ne_append "Filename" c " (Explanation)" 'e' ')' _ _ rfl rfl (by decide)

theorem candidate_ne_scoreKey (c : String) : "Candidate Name" ≠ scoreKey c :=
  str_fixed_ne_append "Candidate Name" c " (Score)" 'e' ')' _ _ rfl rfl (by decide)

theorem candidate_ne_explKey (c : String) : "Candidate Name" ≠ explKey c :=
  str_fixed_ne_append "Candidate Name" c " (Explanation)" 'e' ')' _ _ rfl rfl (by decide)

theorem total_ne_scoreKey (c : String) : "Total Score" ≠ scoreKey c :=
  str_fixed_ne_append "Total Score" c " (Score)" 'e' ')' _ _ rfl rfl (by decide)

theorem total_ne_explKey (c : String) : "Total Score" ≠ explKey c :=
  str_fixed_ne_append "Total Score" c " (Explanation)" 'e' ')' _ _ rfl rfl (by decide)

theorem average_ne_scoreKey (c : String) : "Average Score" ≠ scoreKey c :=
  str_fixed_ne_append "Average Score" c " (Score)" 'e' ')' _ _ rfl rfl (by decide)

theorem average_ne_explKey (c : String) : "Average Score" ≠ explKey c :=
  str_fixed_ne_append "Average Score" c " (Explanation)" 'e' ')' _ _ rfl rfl (by decide)

/-! Characterization of the per-criterion column fold. -/

theorem alookup_critFold_score (r : EvalResult) (criteria : List String) :
    ∀ (d : Row) (c0 : String),
      alookup (criteria.foldl (critCols r) d) (scoreKey c0) =
        if c0 ∈ criteria then some (scoreCell r c0) else alookup d (scoreKey c0) := by
  induction criteria with
  | nil => intro d c0; simp
  | cons c cs ih =>
    intro d c0
    rw [List.foldl_cons, ih]
    by_cases hmem : c0 ∈ cs
    · simp [hmem]
    · rw [if_neg hmem]
      by_cases hc : c0 = c
      · subst hc
        unfold critCols
        rw [alookup_dictInsert_ne _ _ _ _ (scoreKey_ne_explKey c0 c0),
          alookup_dictInsert_self]
        simp
      · unfold critCols
        rw [alookup_dictInsert_ne _ _ _ _ (scoreKey_ne_explKey c0 c),
          alookup_dictInsert_ne _ _ _ _ (fun hx => hc (scoreKey_inj _ _ hx))]
        have hnm : c0 ∉ c :: cs := by simp [hc, hmem]
        rw [if_neg hnm]

theorem alookup_critFold_expl (r : EvalResult) (criteria : List String) :
    ∀ (d : Row) (c0 : String),
      alookup (criteria.foldl (critCols r) d) (explKey c0) =
        if c0 ∈ criteria then some (explCell r c0) else alookup d (explKey c0) := by
  induction criteria with
  | nil => intro d c0; simp
  | cons c cs ih =>
    intro d c0
    rw [List.foldl_cons, ih]
    by_cases hmem : c0 ∈ cs
    · simp [hmem]
    · rw [if_neg hmem]
      by_cases hc : c0 = c
      · subst hc
        unfold critCols
        rw [alookup_dictInsert_self]
        simp
      · unfold critCols
        rw [alookup_dictInsert_ne _ _ _ _ (fun hx => hc (explKey_inj _ _ hx)),
          alookup_dictInsert_ne _ _ _ _ (Ne.symm (scoreKey_ne_explKey c c0))]
        have hnm : c0 ∉ c :: cs := by simp [hc, hmem]
        rw [if_neg hnm]

theorem alookup_critFold_other (r : EvalResult) (criteria : List String) (key : String)
    (hs : ∀ c, key ≠ scoreKey c) (he : ∀ c, key ≠ explKey c) :
    ∀ d : Row, alookup (criteria.foldl (critCols r) d) key = alookup d key := by
  induction criteria with
  | nil => intro d; rfl
  | cons c cs ih =>
    intro d
    rw [List.foldl_cons, ih]
    unfold critCols
    rw [alookup_dictInsert_ne _ _ _ _ (he c), alookup_dictInsert_ne _ _ _ _ (hs c)]

/-! Lookup characterization of a finished row. -/

theorem alookup_buildRow_scoreKey (criteria : List String) (fname : String)
    (r : EvalResult) (c0 : String) :
    alookup (buildRow criteria fname r) (scoreKey c0) =
      if c0 ∈ criteria then some (scoreCell r c0) else none := by
  simp only [buildRow]
  rw [alookup_dictInsert_ne _ _ _ _ (Ne.symm (average_ne_scoreKey c0)),
    alookup_dictInsert_ne _ _ _ _ (Ne.symm (total_ne_scoreKey c0)),
    alookup_critFold_score]
  by_cases hmem : c0 ∈ criteria
  · rw [if_pos hmem, if_pos hmem]
  · rw [if_neg hmem, if_neg hmem,
      alookup_dictInsert_ne _ _ _ _ (Ne.symm (candidate_ne_scoreKey c0)),
      alookup_dictInsert_ne _ _ _ _ (Ne.symm (filename_ne_scoreKey c0))]
    rfl

theorem alookup_buildRow_explKey (criteria : List String) (fname : String)
    (r : EvalResult) (c0 : String) :
    alookup (buildRow criteria fname r) (explKey c0) =
      if c0 ∈ criteria then some (explCell r c0) else none := by
  simp only [buildRow]
  rw [alookup_dictInsert_ne _ _ _ _ (Ne.symm (average_ne_explKey c0)),
    alookup_dictInsert_ne _ _ _ _ (Ne.symm (total_ne_explKey c0)),
    alookup_critFold_expl]
  by_cases hmem : c0 ∈ criteria
  · rw [if_pos hmem, if_pos hmem]
  · rw [if_neg hmem, if_neg hmem,
      alookup_dictInsert_ne _ _ _ _ (Ne.symm (candidate_ne_explKey c0)),
      alookup_dictInsert_ne _ _ _ _ (Ne.symm (filename_ne_explKey c0))]
    rfl

theorem alookup_buildRow_total (criteria : List String) (fname : String)
    (r : EvalResult) :
    alookup (buildRow criteria fname r) "Total Score" =
      some (Cell.i ((r.scores.map Prod.snd).sum)) := by
  simp only [buildRow]
  rw [alookup_dictInsert_ne _ _ _ _ (by decide : ("Total Score" : String) ≠ "Average Score"),
    alookup_dictInsert_self]

theorem alookup_buildRow_average (criteria : List String) (fname : String)
    (r : EvalResult) :
    alookup (buildRow criteria fname r) "Average Score" =
      some (Cell.q (round2
        ((((r.scores.map Prod.snd).sum : ℤ) : ℚ) / (criteria.length : ℚ)))) := by
  simp only [buildRow]
  rw [alookup_dictInsert_self]

/-! Explicit structure of a finished row, for distinct criteria. -/

theorem alookup_critBlock_other (r : EvalResult) (criteria : List String) (key : String)
    (hs : ∀ c, key ≠ scoreKey c) (he : ∀ c, key ≠ explKey c) :
    alookup ((criteria.map (fun c =>
      [(scoreKey c, scoreCell r c), (explKey c, explCell r c)])).flatten) key = none := by
  induction criteria with
  | nil => rfl
  | cons c cs ih => simp [alookup, hs c, he c, ih]

theorem critFold_explicit (r : EvalResult) (criteria : List String) :
    ∀ d : Row, criteria.Nodup →
      (∀ c ∈ criteria, alookup d (scoreKey c) = none ∧ alookup d (explKey c) = none) →
      criteria.foldl (critCols r) d =
        d ++ (criteria.map (fun c =>
          [(scoreKey c, scoreCell r c), (explKey c, explCell r c)])).flatten := by
  induction criteria with
  | nil => intro d _ _; simp
  | cons c cs ih =>
    intro d hN hfresh
    rw [List.foldl_cons]
    have hd : critCols r d c =
        d ++ [(scoreKey c, scoreCell r c), (explKey c, explCell r c)] := by
      unfold critCols
      rw [dictInsert_fresh _ _ _ (hfresh c (List.mem_cons_self c cs)).1,
        dictInsert_fresh, List.append_assoc]
      · rfl
      · rw [alookup_append, (hfresh c (List.mem_cons_self c cs)).2]
        simp [alookup, Ne.symm (scoreKey_ne_explKey c c)]
    rw [hd, ih (d ++ [(scoreKey c, scoreCell r c), (explKey c, explCell r c)])
      (List.nodup_cons.mp hN).2 ?_, List.append_assoc]
    · simp
    · intro c' hc'
      have hcc : c' ≠ c := fun hx => (List.nodup_cons.mp hN).1 (hx ▸ hc')
      have hfr := hfresh c' (List.mem_cons_of_mem _ hc')
      constructor
      · rw [alookup_append, hfr.1]
        simp only [Option.orElse, alookup]
        rw [if_neg (fun hx => hcc (scoreKey_inj _ _ hx)),
          if_neg (scoreKey_ne_explKey c' c)]
      · rw [alookup_append, hfr.2]
        simp only [Option.orElse, alookup]
        rw [if_neg (Ne.symm (scoreKey_ne_explKey c c')),
          if_neg (fun hx => hcc (explKey_inj _ _ hx))]

theorem buildRow_explicit (criteria : List String) (fname : String) (r : EvalResult)
    (hN : criteria.Nodup) :
    buildRow criteria fname r =
      [("Filename", Cell.s fname), ("Candidate Name", Cell.s (r.name.getD "Unknown"))] ++
      (criteria.map (fun c =>
        [(scoreKey c, scoreCell r c), (explKey c, explCell r c)])).flatten ++
      [("Total Score", Cell.i ((r.scores.map Prod.snd).sum)),
       ("Average Score", Cell.q (round2
         ((((r.scores.map Prod.snd).sum : ℤ) : ℚ) / (criteria.length : ℚ))))] := by
  simp only [buildRow]
  have h0 : dictInsert ([] : Row) "Filename" (Cell.s fname) =
      [("Filename", Cell.s fname)] := by
    rw [dictInsert_fresh _ _ _ (by rfl)]
    rfl
  have h1 : dictInsert [("Filename", Cell.s fname)] "Candidate Name"
      (Cell.s (r.name.getD "Unknown")) =
      [("Filename", Cell.s fname),
       ("Candidate Name", Cell.s (r.name.getD "Unknown"))] := by
    rw [dictInsert_fresh _ _ _ (by rfl)]
    rfl
  rw [h0, h1]
  have hbase : ∀ c ∈ criteria,
      alookup [("Filename", Cell.s fname), ("Candidate Name",
        Cell.s (r.name.getD "Unknown"))] (scoreKey c) = none ∧
      alookup [("Filename", Cell.s fname), ("Candidate Name",
        Cell.s (r.name.getD "Unknown"))] (explKey c) = none := by
    intro c _
    constructor
    · simp only [alookup]
      rw [if_neg (Ne.symm (filename_ne_scoreKey c)),
        if_neg (Ne.symm (candidate_ne_scoreKey c))]
    · simp only [alookup]
      rw [if_neg (Ne.symm (filename_ne_explKey c)),
        if_neg (Ne.symm (candidate_ne_explKey c))]
  rw [critFold_explicit r criteria _ hN hbase]
  have htot : alookup ([("Filename", Cell.s fname), ("Candidate Name",
      Cell.s (r.name.getD "Unknown"))] ++ (criteria.map (fun c =>
        [(scoreKey c, scoreCell r c), (explKey c, explCell r c)])).flatten)
      "Total Score" = none := by
    rw [alookup_append,
      alookup_critBlock_other r criteria _ total_ne_scoreKey total_ne_explKey]
    rfl
  rw [dictInsert_fresh _ "Total Score" _ htot]
  have havg : alookup (([("Filename", Cell.s fname), ("Candidate Name",
      Cell.s (r.name.getD "Unknown"))] ++ (criteria.map (fun c =>
        [(scoreKey c, scoreCell r c), (explKey c, explCell r c)])).flatten) ++
      [("Total Score", Cell.i ((r.scores.map Prod.snd).sum))])
      "Average Score" = none := by
    rw [alookup_append, alookup_append,
      alookup_critBlock_other r criteria _ average_ne_scoreKey average_ne_explKey]
    rfl
  rw [dictInsert_fresh _ "Average Score" _ havg]
  simp [List.append_assoc]

/-! Membership and sum lemmas for the total-score comparison. -/

theorem alookup_some_mem {α : Type} (d : List (String × α)) (k : String) (a : α)
    (h : alookup d k = some a) : k ∈ d.map Prod.fst := by
  induction d with
  | nil => cases h
  | cons p rest ih =>
    by_cases hk : k = p.1
    · simp [hk]
    · simp only [alookup, hk, if_false] at h
      simp [ih h]

theorem sum_map_ite_eq (l : List String) (hl : l.Nodup) (k : String) (v : ℤ)
    (hk : k ∈ l) :
    (l.map (fun c => if c = k then v else 0)).sum = v := by
  induction l with
  | nil => cases hk
  | cons a l ih =>
    rcases List.mem_cons.mp hk with h | h
    · subst h
      have hnotin := (List.nodup_cons.mp hl).1
      have hz : (l.map (fun c => if c = k then v else 0)).sum = 0 := by
        apply List.sum_eq_zero
        intro x hx
        obtain ⟨c, hc, hcx⟩ := List.mem_map.mp hx
        rw [if_neg (fun hca : c = k => hnotin (hca ▸ hc))] at hcx
        exact hcx.symm
      simp [hz]
    · have ha : a ≠ k := fun hx => (List.nodup_cons.mp hl).1 (hx ▸ h)
      simp [ha, ih (List.nodup_cons.mp hl).2 h]

/-- When the oracle's score map mentions only requested criteria (and both
key lists are duplicate-free), the source's `sum(scores.values())` agrees
with the spec's default-filled per-criterion sum. -/
theorem specTotal_eq_sum_values (criteria : List String) (scores : List (String × ℤ))
    (hsN : (scores.map Prod.fst).Nodup)
    (hsub : ∀ k ∈ scores.map Prod.fst, k ∈ criteria)
    (hcN : criteria.Nodup) :
    specTotal criteria scores = (scores.map Prod.snd).sum := by
  induction scores with
  | nil => simp [specTotal, alookup]
  | cons p rest ih =>
    obtain ⟨k, v⟩ := p
    have hsN' : (k :: rest.map Prod.fst).Nodup := hsN
    have hk_notin : k ∉ rest.map Prod.fst := (List.nodup_cons.mp hsN').1
    have hrestN : (rest.map Prod.fst).Nodup := (List.nodup_cons.mp hsN').2
    have hkmem : k ∈ criteria := hsub k (by simp)
    have hpt : ∀ c, ((alookup ((k, v) :: rest) c).getD 0) =
        ((alookup rest c).getD 0) + (if c = k then v else 0) := by
      intro c
      by_cases hc : c = k
      · subst hc
        have hnone : alookup rest c = none := by
          cases hx : alookup rest c with
          | none => rfl
          | some a => exact absurd (alookup_some_mem rest c a hx) hk_notin
        simp [alookup, hnone]
      · simp [alookup, hc]
    have hsum : specTotal criteria ((k, v) :: rest) =
        specTotal criteria rest + (criteria.map (fun c => if c = k then v else 0)).sum := by
      unfold specTotal
      rw [← List.sum_map_add]
      exact congrArg List.sum (List.map_congr_left (fun c _ => hpt c))
    rw [hsum, sum_map_ite_eq criteria hcN k v hkmem,
      ih hrestN (fun k' hk' => hsub k' (by simp [hk']))]
    simp [add_comm]

/-! Suffix facts for the generated column names. -/

theorem prefB_append_self : ∀ l m : List Char, prefB l (l ++ m) = true := by
  intro l
  induction l with
  | nil => intro m; rfl
  | cons a as ih => intro m; simp [prefB, ih]

theorem strEndsWith_append (c s : String) : strEndsWith (c ++ s) s = true := by
  unfold strEndsWith
  rw [String.data_append, List.reverse_append]
  exact prefB_append_self _ _

theorem prefB_mismatch₂ (x y : Char) (xs : List Char) (y' : Char) (ys : List Char)
    (h : y ≠ y') : prefB (x :: y :: xs) (x :: y' :: ys) = false := by
  simp [prefB, h]

theorem strEndsWith_scoreKey_self (c : String) :
    strEndsWith (scoreKey c) " (Score)" = true :=
  strEndsWith_append c " (Score)"

theorem strEndsWith_explKey_self (c : String) :
    strEndsWith (explKey c) " (Explanation)" = true :=
  strEndsWith_append c " (Explanation)"

theorem strEndsWith_explKey_score (c : String) :
    strEndsWith (explKey c) " (Score)" = false := by
  unfold strEndsWith explKey
  rw [String.data_append, List.reverse_append]
  have h1 : (" (Score)" : String).data.reverse =
      ')' :: 'e' :: ['r', 'o', 'c', 'S', '(', ' '] := rfl
  have h2 : (" (Explanation)" : String).data.reverse ++ c.data.reverse =
      ')' :: 'n' :: (['o', 'i', 't', 'a', 'n', 'a', 'l', 'p', 'x', 'E', '(', ' '] ++
        c.data.reverse) := rfl
  rw [h1, h2]
  exact prefB_mismatch₂ _ _ _ _ _ (by decide)

theorem strEndsWith_scoreKey_expl (c : String) :
    strEndsWith (scoreKey c) " (Explanation)" = false := by
  unfold strEndsWith scoreKey
  rw [String.data_append, List.reverse_append]
  have h1 : (" (Explanation)" : String).data.reverse =
      ')' :: 'n' :: ['o', 'i', 't', 'a', 'n', 'a', 'l', 'p', 'x', 'E', '(', ' '] := rfl
  have h2 : (" (Score)" : String).data.reverse ++ c.data.reverse =
      ')' :: 'e' :: (['r', 'o', 'c', 'S', '(', ' '] ++ c.data.reverse) := rfl
  rw [h1, h2]
  exact prefB_mismatch₂ _ _ _ _ _ (by decide)

theorem scoreEntries_block (r : EvalResult) (criteria : List String) :
    ((criteria.map (fun c =>
        [(scoreKey c, scoreCell r c), (explKey c, explCell r c)])).flatten).filter
      (fun p => strEndsWith p.1 " (Score)") =
    criteria.map (fun c => (scoreKey c, scoreCell r c)) := by
  induction criteria with
  | nil => rfl
  | cons c cs ih =>
    simp [List.filter_cons, List.filter_append, strEndsWith_scoreKey_self,
      strEndsWith_explKey_score, ih]

theorem explEntries_block (r : EvalResult) (criteria : List String) :
    ((criteria.map (fun c =>
        [(scoreKey c, scoreCell r c), (explKey c, explCell r c)])).flatten).filter
      (fun p => strEndsWith p.1 " (Explanation)") =
    criteria.map (fun c => (explKey c, explCell r c)) := by
  induction criteria with
  | nil => rfl
  | cons c cs ih =>
    simp [List.filter_cons, List.filter_append, strEndsWith_explKey_self,
      strEndsWith_scoreKey_expl, ih]

/-- C2: for every successfully processed document — whatever the oracle's
mappings contained — the row's per-criterion score entries are exactly one
per criterion of the (duplicate-free) criteria list, in list order, with
missing scores defaulted to 0 and missing explanations defaulted to
"No explanation provided", and oracle keys outside the criteria list absent
from the row. -/
theorem c2_row_key_completeness (criteria : List String) (hN : criteria.Nodup)
    (fname : String) (r : EvalResult) :
    (scoreEntries (buildRow criteria fname r)).map Prod.fst =
      criteria.map scoreKey ∧
    (explEntries (buildRow criteria fname r)).map Prod.fst =
      criteria.map explKey ∧
    (∀ c ∈ criteria,
      alookup (buildRow criteria fname r) (scoreKey c) =
        some (Cell.i ((alookup r.scores c).getD 0)) ∧
      alookup (buildRow criteria fname r) (explKey c) =
        some (Cell.s ((alookup r.explanations c).getD "No explanation provided"))) ∧
    (∀ c, c ∉ criteria →
      alookup (buildRow criteria fname r) (scoreKey c) = none ∧
      alookup (buildRow criteria fname r) (explKey c) = none) := by
  have hF : strEndsWith "Filename" " (Score)" = false := by decide
  have hC : strEndsWith "Candidate Name" " (Score)" = false := by decide
  have hT : strEndsWith "Total Score" " (Score)" = false := by decide
  have hA : strEndsWith "Average Score" " (Score)" = false := by decide
  have hF' : strEndsWith "Filename" " (Explanation)" = false := by decide
  have hC' : strEndsWith "Candidate Name" " (Explanation)" = false := by decide
  have hT' : strEndsWith "Total Score" " (Explanation)" = false := by decide
  have hA' : strEndsWith "Average Score" " (Explanation)" = false := by decide
  refine ⟨?_, ?_, ?_, ?_⟩
  · rw [buildRow_explicit criteria fname r hN]
    unfold scoreEntries
    rw [List.filter_append, List.filter_append, scoreEntries_block]
    have hb : List.filter (fun p => strEndsWith p.1 " (Score)")
        [("Filename", Cell.s fname),
         ("Candidate Name", Cell.s (r.name.getD "Unknown"))] = [] := by
      simp [List.filter_cons, hF, hC]
    have ht : List.filter (fun p => strEndsWith p.1 " (Score)")
        [("Total Score", Cell.i ((r.scores.map Prod.snd).sum)),
         ("Average Score", Cell.q (round2
           ((((r.scores.map Prod.snd).sum : ℤ) : ℚ) / (criteria.length : ℚ))))] =
        [] := by
      simp [List.filter_cons, hT, hA]
    rw [hb, ht]
    simp
  · rw [buildRow_explicit criteria fname r hN]
    unfold explEntries
    rw [List.filter_append, List.filter_append, explEntries_block]
    have hb : List.filter (fun p => strEndsWith p.1 " (Explanation)")
        [("Filename", Cell.s fname),
         ("Candidate Name", Cell.s (r.name.getD "Unknown"))] = [] := by
      simp [List.filter_cons, hF', hC']
    have ht : List.filter (fun p => strEndsWith p.1 " (Explanation)")
        [("Total Score", Cell.i ((r.scores.map Prod.snd).sum)),
         ("Average Score", Cell.q (round2
           ((((r.scores.map Prod.snd).sum : ℤ) : ℚ) / (criteria.length : ℚ))))] =
        [] := by
      simp [List.filter_cons, hT', hA']
    rw [hb, ht]
    simp
  · intro c hc
    rw [alookup_buildRow_scoreKey, if_pos hc, alookup_buildRow_explKey, if_pos hc]
    exact ⟨rfl, rfl⟩
  · intro c hc
    rw [alookup_buildRow_scoreKey, if_neg hc, alookup_buildRow_explKey, if_neg hc]
    exact ⟨rfl, rfl⟩

/-- C2 witness: criteria `["A", "B"]`; the oracle omits "A", adds an extra
key "X"; the row has exactly the columns for "A" and "B" and no column for
"X". -/
theorem c2_row_key_completeness_witness :
    (scoreEntries (buildRow ["A", "B"] "f.pdf"
      ⟨some "J", [("B", 2), ("X", 9)], [("X", "z")]⟩)).map Prod.fst =
      ["A", "B"].map scoreKey ∧
    alookup (buildRow ["A", "B"] "f.pdf"
      ⟨some "J", [("B", 2), ("X", 9)], [("X", "z")]⟩) (scoreKey "A") =
      some (Cell.i 0) ∧
    alookup (buildRow ["A", "B"] "f.pdf"
      ⟨some "J", [("B", 2), ("X", 9)], [("X", "z")]⟩) (scoreKey "X") = none :=
  ⟨(c2_row_key_completeness ["A", "B"] (by decide) "f.pdf"
      ⟨some "J", [("B", 2), ("X", 9)], [("X", "z")]⟩).1,
   ((c2_row_key_completeness ["A", "B"] (by decide) "f.pdf"
      ⟨some "J", [("B", 2), ("X", 9)], [("X", "z")]⟩).2.2.1 "A" (by decide)).1,
   ((c2_row_key_completeness ["A", "B"] (by decide) "f.pdf"
      ⟨some "J", [("B", 2), ("X", 9)], [("X", "z")]⟩).2.2.2 "X" (by decide)).1⟩

/-- C1 counterexample: with criteria `["A"]` and an oracle scores map
`{"A": 1, "B": 5}` carrying the extra key "B", the row's `Total Score` is
`sum(scores.values()) = 6`, not the claim's default-filled per-criterion sum
(`specTotal = 1`, excluding oracle keys outside the criteria list). -/
theorem c1_total_includes_extra_oracle_keys :
    alookup (buildRow ["A"] "f.pdf" ⟨some "J", [("A", 1), ("B", 5)], []⟩)
      "Total Score" = some (Cell.i 6) ∧
    specTotal ["A"] [("A", 1), ("B", 5)] = 1 ∧
    alookup (buildRow ["A"] "f.pdf" ⟨some "J", [("A", 1), ("B", 5)], []⟩)
      "Total Score" ≠
      some (Cell.i (specTotal ["A"] [("A", 1), ("B", 5)])) := by
  refine ⟨by decide, by decide, by decide⟩

/-- C1 amended: the row's score for a criterion absent from the oracle's
scores map is exactly 0; `Total Score` is the sum of ALL values of the
oracle's scores map (oracle keys outside the criteria list are included,
not excluded); `Average Score` is that same total divided by the criteria
count, rounded to 2 decimal places; and whenever the oracle's scores map
mentions only requested criteria (no extra keys), the code's total agrees
with the claim's default-filled per-criterion sum. -/
theorem c1_total_and_average (criteria : List String) (fname : String)
    (r : EvalResult) :
    (∀ c ∈ criteria, alookup r.scores c = none →
      alookup (buildRow criteria fname r) (scoreKey c) = some (Cell.i 0)) ∧
    alookup (buildRow criteria fname r) "Total Score" =
      some (Cell.i ((r.scores.map Prod.snd).sum)) ∧
    alookup (buildRow criteria fname r) "Average Score" =
      some (Cell.q (round2
        ((((r.scores.map Prod.snd).sum : ℤ) : ℚ) / (criteria.length : ℚ)))) ∧
    ((r.scores.map Prod.fst).Nodup → (∀ k ∈ r.scores.map Prod.fst, k ∈ criteria) →
      criteria.Nodup → (r.scores.map Prod.snd).sum = specTotal criteria r.scores) := by
  refine ⟨?_, alookup_buildRow_total criteria fname r,
    alookup_buildRow_average criteria fname r, ?_⟩
  · intro c hc hnone
    rw [alookup_buildRow_scoreKey, if_pos hc]
    simp [scoreCell, hnone]
  · intro h1 h2 h3
    exact (specTotal_eq_sum_values criteria r.scores h1 h2 h3).symm

/-- C1 witness: criteria `["A", "B"]`, oracle scores `{"A": 5}`; the missing
criterion "B" scores exactly 0 and the code total agrees with the
default-filled sum since there are no extra oracle keys. -/
theorem c1_total_and_average_witness :
    alookup (buildRow ["A", "B"] "f.pdf" ⟨some "J", [("A", 5)], []⟩)
      (scoreKey "B") = some (Cell.i 0) ∧
    (List.map Prod.snd ([("A", 5)] : List (String × ℤ))).sum =
      specTotal ["A", "B"] [("A", 5)] :=
  ⟨(c1_total_and_average ["A", "B"] "f.pdf" ⟨some "J", [("A", 5)], []⟩).1 "B"
      (by decide) (by decide),
   (c1_total_and_average ["A", "B"] "f.pdf" ⟨some "J", [("A", 5)], []⟩).2.2.2
      (by decide) (by decide) (by decide)⟩

/-! Substring facts for the column filters of the serializer. -/

theorem substrB_append_right (pat xs ys : List Char) (h : substrB pat ys = true) :
    substrB pat (xs ++ ys) = true := by
  induction xs with
  | nil => simpa using h
  | cons x xs ih => simp [substrB, ih]

theorem strContains_scoreKey_score (c : String) :
    strContains (scoreKey c) "Score" = true := by
  unfold strContains scoreKey
  rw [String.data_append]
  exact substrB_append_right _ _ _ (by decide)

theorem strContains_explKey_expl (c : String) :
    strContains (explKey c) "Explanation" = true := by
  unfold strContains explKey
  rw [String.data_append]
  exact substrB_append_right _ _ _ (by decide)

/-! First-occurrence deduplication lemmas (pandas column-union order). -/

theorem mem_pyDedup (l : List String) (a : String) : a ∈ pyDedup l ↔ a ∈ l := by
  induction l with
  | nil => simp [pyDedup]
  | cons x xs ih =>
    by_cases hax : a = x
    · simp [pyDedup, hax]
    · simp [pyDedup, hax, List.mem_filter, ih]

theorem pyDedup_eq_self (l : List String) (h : l.Nodup) : pyDedup l = l := by
  induction l with
  | nil => rfl
  | cons x xs ih =>
    have hx := (List.nodup_cons.mp h).1
    rw [pyDedup, ih (List.nodup_cons.mp h).2]
    rw [List.filter_eq_self.mpr]
    intro a ha
    simp
    exact fun hax => hx (hax ▸ ha)

theorem filter_pyDedup_concat (x : String) :
    ∀ L : List String,
      (pyDedup (L ++ [x])).filter (fun y => y ≠ x) =
        (pyDedup L).filter (fun y => y ≠ x) := by
  intro L
  induction L with
  | nil => simp [pyDedup]
  | cons y ys ih =>
    by_cases hyx : y = x
    · subst hyx
      simp only [List.cons_append, pyDedup, List.filter_cons]
      rw [if_neg (by simp)]
      rw [List.filter_filter, List.filter_filter]
      simpa [Bool.and_self] using ih
    · simp only [List.cons_append, pyDedup, List.filter_cons]
      rw [if_pos (by simp [hyx]), if_pos (by simp [hyx])]
      rw [List.filter_filter, List.filter_filter]
      have hcomm : ∀ M : List String,
          M.filter (fun a => decide (a ≠ x) && decide (a ≠ y)) =
            (M.filter (fun a => a ≠ x)).filter (fun a => a ≠ y) := by
        intro M
        rw [List.filter_filter]
        apply List.filter_congr
        intro a _
        exact Bool.and_comm _ _
      rw [hcomm, hcomm]
      simp only [List.append_eq]
      rw [ih]

theorem pyDedup_concat_mem (a : String) :
    ∀ L : List String, a ∈ L → pyDedup (L ++ [a]) = pyDedup L := by
  intro L
  induction L with
  | nil => intro h; cases h
  | cons y ys ih =>
    intro h
    rcases List.mem_cons.mp h with hay | hays
    · subst hay
      simp only [List.cons_append, pyDedup, List.append_eq]
      rw [filter_pyDedup_concat]
    · simp only [List.cons_append, pyDedup, List.append_eq]
      rw [ih hays]

theorem pyDedup_append_subset :
    ∀ (m L : List String), (∀ b ∈ m, b ∈ L) → pyDedup (L ++ m) = pyDedup L := by
  intro m
  induction m with
  | nil => intro L _; simp
  | cons b m' ih =>
    intro L hsub
    have hassoc : L ++ b :: m' = (L ++ [b]) ++ m' := by simp
    rw [hassoc, ih (L ++ [b]) (fun x hx =>
      List.mem_append_left _ (hsub x (List.mem_cons_of_mem _ hx))),
      pyDedup_concat_mem b L (hsub b (List.mem_cons_self b m'))]

/-! Column structure of the serialized report. -/

theorem buildRow_keys (criteria : List String) (fname : String) (r : EvalResult)
    (hN : criteria.Nodup) :
    (buildRow criteria fname r).map Prod.fst =
      ["Filename", "Candidate Name"] ++
      (criteria.map (fun c => [scoreKey c, explKey c])).flatten ++
      ["Total Score", "Average Score"] := by
  rw [buildRow_explicit criteria fname r hN]
  simp only [List.map_append]
  rw [List.map_flatten, List.map_map]
  rfl

theorem mem_critKeys (criteria : List String) (k : String) :
    k ∈ (criteria.map (fun c => [scoreKey c, explKey c])).flatten ↔
      ∃ c ∈ criteria, k = scoreKey c ∨ k = explKey c := by
  induction criteria with
  | nil => simp
  | cons c cs ih =>
    simp only [List.map_cons, List.flatten_cons, List.mem_append, ih]
    constructor
    · rintro (hk | ⟨c', hc', ho⟩)
      · rcases List.mem_cons.mp hk with h | h
        · exact ⟨c, List.mem_cons_self c cs, Or.inl h⟩
        · exact ⟨c, List.mem_cons_self c cs, Or.inr (by simpa using h)⟩
      · exact ⟨c', List.mem_cons_of_mem _ hc', ho⟩
    · rintro ⟨c', hc', ho⟩
      rcases List.mem_cons.mp hc' with h | h
      · subst h
        rcases ho with h | h <;> simp [h]
      · exact Or.inr ⟨c', h, ho⟩

theorem critKeys_nodup (criteria : List String) (hN : criteria.Nodup) :
    ((criteria.map (fun c => [scoreKey c, explKey c])).flatten).Nodup := by
  induction criteria with
  | nil => simp
  | cons c cs ih =>
    have hnotin := (List.nodup_cons.mp hN).1
    have ihn := ih (List.nodup_cons.mp hN).2
    simp only [List.map_cons, List.flatten_cons]
    rw [List.nodup_append]
    refine ⟨by simp [scoreKey_ne_explKey c c], ihn, ?_⟩
    intro k hk1 hk2
    obtain ⟨c', hc', ho⟩ := (mem_critKeys cs k).mp hk2
    have hcc : c' ≠ c := fun hx => hnotin (hx ▸ hc')
    rcases List.mem_cons.mp hk1 with h | h'
    · rcases ho with h2 | h2
      · exact hcc (scoreKey_inj c' c (h2.symm.trans h))
      · exact scoreKey_ne_explKey c c' (h.symm.trans h2)
    · have h : k = explKey c := by simpa using h'
      rcases ho with h2 | h2
      · exact scoreKey_ne_explKey c' c (h2.symm.trans h)
      · exact hcc (explKey_inj c' c (h2.symm.trans h))

theorem filter_critKeys_score (criteria : List String)
    (hna : ∀ c ∈ criteria, strContains (explKey c) "Score" = false) :
    ((criteria.map (fun c => [scoreKey c, explKey c])).flatten).filter
      (fun k => strContains k "Score") = criteria.map scoreKey := by
  induction criteria with
  | nil => rfl
  | cons c cs ih =>
    have h1 := hna c (List.mem_cons_self c cs)
    have ih' := ih (fun c' h => hna c' (List.mem_cons_of_mem _ h))
    simp [List.filter_cons, List.filter_append, strContains_scoreKey_score, h1, ih']

theorem filter_critKeys_expl (criteria : List String)
    (hnb : ∀ c ∈ criteria, strContains (scoreKey c) "Explanation" = false) :
    ((criteria.map (fun c => [scoreKey c, explKey c])).flatten).filter
      (fun k => strContains k "Explanation") = criteria.map explKey := by
  induction criteria with
  | nil => rfl
  | cons c cs ih =>
    have h1 := hnb c (List.mem_cons_self c cs)
    have ih' := ih (fun c' h => hnb c' (List.mem_cons_of_mem _ h))
    simp [List.filter_cons, List.filter_append, strContains_explKey_expl, h1, ih']

theorem serializeReport_columns_const (rows : List Row) (K : List String)
    (hne : rows ≠ []) (hK : ∀ row ∈ rows, row.map Prod.fst = K) (hN : K.Nodup) :
    (serializeReport rows).columns =
      baseCols ++ K.filter (fun c => strContains c "Score") ++
      K.filter (fun c => strContains c "Explanation") := by
  have hall : pyDedup ((rows.map (fun r => r.map Prod.fst)).flatten) = K := by
    cases rows with
    | nil => exact absurd rfl hne
    | cons r0 rest =>
      have h0 : r0.map Prod.fst = K := hK r0 (List.mem_cons_self r0 rest)
      have hsub : ∀ b ∈ (rest.map (fun r => r.map Prod.fst)).flatten, b ∈ K := by
        intro b hb
        obtain ⟨l, hl, hbl⟩ := List.mem_flatten.mp hb
        obtain ⟨row, hrow, rfl⟩ := List.mem_map.mp hl
        rw [hK row (List.mem_cons_of_mem _ hrow)] at hbl
        exact hbl
      simp only [List.map_cons, List.flatten_cons, h0]
      rw [pyDedup_append_subset _ K hsub, pyDedup_eq_self K hN]
  simp only [serializeReport]
  rw [hall]

/-- C4 counterexample: with the single criterion "Skill Score" — whose text
contains the word "Score" — the column `Skill Score (Explanation)` matches
BOTH substring filters (`"Score" in col` and `"Explanation" in col`) and is
emitted twice, so the claim's "no column duplicated" fails; the summary
columns also sit inside the scores block rather than after the explanation
columns as the claimed exact ordering requires. -/
theorem c4_duplicate_column :
    (serializeReport [buildRow ["Skill Score"] "f.pdf"
        ⟨some "J", [("Skill Score", 4)], []⟩]).columns =
      ["Filename", "Candidate Name", "Skill Score (Score)",
       "Skill Score (Explanation)", "Total Score", "Average Score",
       "Skill Score (Explanation)"] ∧
    ¬ (serializeReport [buildRow ["Skill Score"] "f.pdf"
        ⟨some "J", [("Skill Score", 4)], []⟩]).columns.Nodup ∧
    (serializeReport [buildRow ["Skill Score"] "f.pdf"
        ⟨some "J", [("Skill Score", 4)], []⟩]).columns.count
      "Skill Score (Explanation)" = 2 := by
  refine ⟨by decide, by decide, by decide⟩

/-- C4 amended: for criteria none of whose generated columns leak across the
substring filters (no criterion containing "Score" or "Explanation"), the
serialized columns are exactly `[Filename, Candidate Name,
<criterion (Score)>* in criteria order, Total Score, Average Score,
<criterion (Explanation)>* in criteria order]`, with no duplicates: the
per-criterion scores block precedes the explanations block, but the derived
`Total Score` and `Average Score` columns close the scores block rather than
trailing the sheet, and criterion texts containing "Score" or "Explanation"
can duplicate or misplace columns. -/
theorem c4_column_ordering (criteria : List String) (hN : criteria.Nodup)
    (hna : ∀ c ∈ criteria, strContains (explKey c) "Score" = false)
    (hnb : ∀ c ∈ criteria, strContains (scoreKey c) "Explanation" = false)
    (docs : List (String × EvalResult)) (hdocs : docs ≠ []) :
    (serializeReport (docs.map (fun d => buildRow criteria d.1 d.2))).columns =
      ["Filename", "Candidate Name"] ++ criteria.map scoreKey ++
      ["Total Score", "Average Score"] ++ criteria.map explKey ∧
    (["Filename", "Candidate Name"] ++ criteria.map scoreKey ++
      ["Total Score", "Average Score"] ++ criteria.map explKey).Nodup := by
  have hKnodup : (["Filename", "Candidate Name"] ++
      (criteria.map (fun c => [scoreKey c, explKey c])).flatten ++
      ["Total Score", "Average Score"]).Nodup := by
    rw [List.nodup_append, List.nodup_append]
    refine ⟨⟨by decide, critKeys_nodup criteria hN, ?_⟩, by decide, ?_⟩
    · intro k hk1 hk2
      obtain ⟨c, _, ho⟩ := (mem_critKeys criteria k).mp hk2
      have hk1' : k = "Filename" ∨ k = "Candidate Name" := by simpa using hk1
      rcases hk1' with h | h <;> rcases ho with h2 | h2
      · exact filename_ne_scoreKey c (h.symm.trans h2)
      · exact filename_ne_explKey c (h.symm.trans h2)
      · exact candidate_ne_scoreKey c (h.symm.trans h2)
      · exact candidate_ne_explKey c (h.symm.trans h2)
    · intro k hk1 hk2
      have hk2' : k = "Total Score" ∨ k = "Average Score" := by simpa using hk2
      rcases List.mem_append.mp hk1 with hb | hm
      · have hb' : k = "Filename" ∨ k = "Candidate Name" := by simpa using hb
        rcases hb' with h | h <;> rcases hk2' with h2 | h2 <;>
          exact absurd (h.symm.trans h2) (by decide)
      · obtain ⟨c, _, ho⟩ := (mem_critKeys criteria k).mp hm
        rcases hk2' with h | h <;> rcases ho with h2 | h2
        · exact total_ne_scoreKey c (h.symm.trans h2)
        · exact total_ne_explKey c (h.symm.trans h2)
        · exact average_ne_scoreKey c (h.symm.trans h2)
        · exact average_ne_explKey c (h.symm.trans h2)
  constructor
  · have hcols := serializeReport_columns_const
      (docs.map (fun d => buildRow criteria d.1 d.2))
      (["Filename", "Candidate Name"] ++
        (criteria.map (fun c => [scoreKey c, explKey c])).flatten ++
        ["Total Score", "Average Score"])
      (by
        cases docs with
        | nil => exact absurd rfl hdocs
        | cons d ds => simp)
      (by
        intro row hrow
        obtain ⟨d, _, rfl⟩ := List.mem_map.mp hrow
        exact buildRow_keys criteria d.1 d.2 hN)
      hKnodup
    rw [hcols]
    rw [List.filter_append, List.filter_append, List.filter_append,
      List.filter_append]
    rw [filter_critKeys_score criteria hna, filter_critKeys_expl criteria hnb]
    rw [show List.filter (fun c => strContains c "Score")
        ["Filename", "Candidate Name"] = [] from by decide]
    rw [show List.filter (fun c => strContains c "Score")
        ["Total Score", "Average Score"] = ["Total Score", "Average Score"]
      from by decide]
    rw [show List.filter (fun c => strContains c "Explanation")
        ["Filename", "Candidate Name"] = [] from by decide]
    rw [show List.filter (fun c => strContains c "Explanation")
        ["Total Score", "Average Score"] = [] from by decide]
    simp [baseCols]
  · have hmapS : (criteria.map scoreKey).Nodup :=
      hN.map (fun a b h => scoreKey_inj a b h)
    have hmapE : (criteria.map explKey).Nodup :=
      hN.map (fun a b h => explKey_inj a b h)
    rw [List.nodup_append, List.nodup_append, List.nodup_append]
    refine ⟨⟨⟨by decide, hmapS, ?_⟩, by decide, ?_⟩, hmapE, ?_⟩
    · intro k hk1 hk2
      obtain ⟨c, _, rfl⟩ := List.mem_map.mp hk2
      have hk1' : scoreKey c = "Filename" ∨ scoreKey c = "Candidate Name" := by
        simpa using hk1
      rcases hk1' with h | h
      · exact filename_ne_scoreKey c h.symm
      · exact candidate_ne_scoreKey c h.symm
    · intro k hk1 hk2
      have hk2' : k = "Total Score" ∨ k = "Average Score" := by simpa using hk2
      rcases List.mem_append.mp hk1 with hb | hm
      · have hb' : k = "Filename" ∨ k = "Candidate Name" := by simpa using hb
        rcases hb' with h | h <;> rcases hk2' with h2 | h2 <;>
          exact absurd (h.symm.trans h2) (by decide)
      · obtain ⟨c, _, rfl⟩ := List.mem_map.mp hm
        rcases hk2' with h | h
        · exact total_ne_scoreKey c h.symm
        · exact average_ne_scoreKey c h.symm
    · intro k hk1 hk2
      obtain ⟨c, _, rfl⟩ := List.mem_map.mp hk2
      rcases List.mem_append.mp hk1 with hbm | ht
      · rcases List.mem_append.mp hbm with hb | hm
        · have hb' : explKey c = "Filename" ∨ explKey c = "Candidate Name" := by
            simpa using hb
          rcases hb' with h | h
          · exact filename_ne_explKey c h.symm
          · exact candidate_ne_explKey c h.symm
        · obtain ⟨c', _, h⟩ := List.mem_map.mp hm
          exact scoreKey_ne_explKey c' c h
      · have ht' : explKey c = "Total Score" ∨ explKey c = "Average Score" := by
          simpa using ht
        rcases ht' with h | h
        · exact total_ne_explKey c h.symm
        · exact average_ne_explKey c h.symm

/-- C4 witness: one document, single criterion "A": the columns come out in
the amended order with the summary columns closing the scores block. -/
theorem c4_column_ordering_witness :
    (serializeReport [buildRow ["A"] "f.pdf" ⟨some "J", [("A", 3)], []⟩]).columns =
      ["Filename", "Candidate Name"] ++ (["A"].map scoreKey) ++
      ["Total Score", "Average Score"] ++ (["A"].map explKey) :=
  (c4_column_ordering ["A"] (by decide) (by decide) (by decide)
    [("f.pdf", ⟨some "J", [("A", 3)], []⟩)] (by decide)).1

end ResumeRanker
